import Mathlib

/-!
Verification of CloudBib's synchronization and conflict-resolution engine.

This file gives a shallow embedding, in Lean, of the core logic of the
CloudBib reference manager — the annotation union-merge algorithm
(`src/services/annotation.service.ts`), the sidecar envelope parser, the
item-sync pull phase and upload-queue drain (`src/services/sync.service.ts`),
and the item/attachment logic of `src/services/library.service.ts` — and
proves the behavioural properties stated in the specification against it.
Database tables are modelled as lists of row records, JavaScript `Map`s as
insertion-ordered association lists, and JavaScript's stable
`Array.prototype.sort` as `List.mergeSort` over the comparator's "≤ 0"
relation.  Annotation timestamps, which the code only ever produces in one
format (`toISOString`) and compares with `>`, are modelled as ordered
instants; item-row timestamps, which the code stores in two different TEXT
formats and string-compares, are kept as the raw strings together with the
JavaScript lexicographic `<` on them.
-/

namespace CloudBib

-- ---------------------------------------------------------------------------
-- Domain model (src/models/types.ts)
-- ---------------------------------------------------------------------------

inductive AnnotationType where
  | highlight
  | note
  | area
deriving DecidableEq, Repr

structure Rect where
  x1 : Int
  y1 : Int
  x2 : Int
  y2 : Int
deriving DecidableEq, Repr

structure Position where
  x : Int
  y : Int
deriving DecidableEq, Repr

/-- One user-authored mark (interface `Annotation` in types.ts).  Numeric
coordinates are modelled as integers; only their ordering matters here.
`createdAt`/`modifiedAt` are ISO-8601 strings in the source, compared with
JavaScript's lexicographic string `>`, which on ISO-8601 timestamps is
exactly chronological order; they are therefore modelled as instants
(naturals) carrying that order. -/
structure Annotation where
  id : String
  type : AnnotationType
  page : Int
  rects : Option (List Rect) := none
  position : Option Position := none
  color : Option String := none
  text : Option String := none
  content : Option String := none
  comment : Option String := none
  createdBy : String
  createdAt : Nat
  modifiedAt : Nat
deriving DecidableEq, Repr

-- ---------------------------------------------------------------------------
-- JavaScript `Map<string, Annotation>` as an insertion-ordered assoc list
-- ---------------------------------------------------------------------------

/-- `Map.prototype.get`: the value bound to `k`, scanning entries in
insertion order. -/
def mapGet : List (String × Annotation) → String → Option Annotation
  | [], _ => none
  | p :: m, k => if p.1 = k then some p.2 else mapGet m k

/-- `Map.prototype.has`. -/
def hasKey : List (String × Annotation) → String → Bool
  | [], _ => false
  | p :: m, k => if p.1 = k then true else hasKey m k

/-- `Map.prototype.set`: replaces the value in place when the key is present
(keeping the original insertion position), otherwise appends. -/
def mapSet (m : List (String × Annotation)) (k : String) (v : Annotation) :
    List (String × Annotation) :=
  if hasKey m k then
    m.map (fun p => if p.1 = k then (k, v) else p)
  else
    m ++ [(k, v)]

-- ---------------------------------------------------------------------------
-- mergeAnnotations (annotation.service.ts, lines 27-59)
-- ---------------------------------------------------------------------------

/-- Vertical position used by the merge sort comparator:
`a.rects?.[0]?.y1 ?? a.position?.y ?? 0`. -/
def yPos (a : Annotation) : Int :=
  match a.rects with
  | some (r :: _) => r.y1
  | _ =>
    match a.position with
    | some p => p.y
    | none => 0

/-- The comparator of `mergeAnnotations` as its induced "compare ≤ 0"
relation: ascending page, then descending `yPos` within a page. -/
def annLE (a b : Annotation) : Bool :=
  if a.page = b.page then decide (yPos b ≤ yPos a) else decide (a.page < b.page)

/-- First loop of `mergeAnnotations`: `for (const ann of local) merged.set(ann.id, ann)`. -/
def seedMap (localAnns : List Annotation) : List (String × Annotation) :=
  localAnns.foldl (fun m a => mapSet m a.id a) []

/-- Body of the second loop of `mergeAnnotations`: a remote annotation is
inserted when its id is new, and replaces the existing entry exactly when its
`modifiedAt` is strictly later (`ann.modifiedAt > existing.modifiedAt`). -/
def mergeStep (m : List (String × Annotation)) (a : Annotation) :
    List (String × Annotation) :=
  match mapGet m a.id with
  | none => mapSet m a.id a
  | some existing =>
    if existing.modifiedAt < a.modifiedAt then mapSet m a.id a else m

/-- The map state after both loops of `mergeAnnotations`. -/
def mergeMap (localAnns remoteAnns : List Annotation) :
    List (String × Annotation) :=
  remoteAnns.foldl mergeStep (seedMap localAnns)

/-- Union merge of two annotation arrays (`mergeAnnotations`):
seed a map with all of `local`, then merge `remote` by id and recency,
finally sort the values by page then position (stable sort, comparator
"compare ≤ 0" relation `annLE`). -/
def mergeAnnotations (localAnns remoteAnns : List Annotation) : List Annotation :=
  ((mergeMap localAnns remoteAnns).map Prod.snd).mergeSort annLE

-- ---------------------------------------------------------------------------
-- Association-map lemmas
-- ---------------------------------------------------------------------------

/-- Every entry of the map binds an annotation to its own id. -/
def keysOK (m : List (String × Annotation)) : Prop :=
  ∀ p ∈ m, (Prod.snd p).id = p.1

/-- The map's keys are pairwise distinct. -/
def nodupKeys (m : List (String × Annotation)) : Prop :=
  (m.map Prod.fst).Nodup

theorem mapGet_nil (k : String) : mapGet [] k = none := rfl

theorem mapGet_cons (p : String × Annotation) (m : List (String × Annotation))
    (k : String) :
    mapGet (p :: m) k = if p.1 = k then some p.2 else mapGet m k := rfl

theorem mapGet_subst_ne (m : List (String × Annotation)) (k k' : String)
    (v : Annotation) (h : k' ≠ k) :
    mapGet (m.map fun q => if q.1 = k then (k, v) else q) k' = mapGet m k' := by
  induction m with
  | nil => rfl
  | cons p t ih =>
    by_cases hp : p.1 = k
    · simp only [List.map_cons, hp, if_true]
      rw [mapGet_cons, mapGet_cons, if_neg (fun hh => h hh.symm),
        if_neg (fun hh => h (hp ▸ hh).symm)]
      exact ih
    · simp only [List.map_cons, hp, if_false]
      rw [mapGet_cons, mapGet_cons]
      by_cases hpk : p.1 = k'
      · simp [hpk]
      · simp only [hpk, if_false]
        exact ih

theorem mapGet_subst_self (m : List (String × Annotation)) (k : String)
    (v : Annotation) (h : hasKey m k = true) :
    mapGet (m.map fun q => if q.1 = k then (k, v) else q) k = some v := by
  induction m with
  | nil => simp [hasKey] at h
  | cons p t ih =>
    by_cases hp : p.1 = k
    · simp [List.map_cons, hp, mapGet_cons]
    · simp only [hasKey, hp, if_false] at h
      simp only [List.map_cons, hp, if_false]
      rw [mapGet_cons, if_neg hp]
      exact ih h

theorem mapGet_append_single_self (m : List (String × Annotation)) (k : String)
    (v : Annotation) (h : hasKey m k = false) :
    mapGet (m ++ [(k, v)]) k = some v := by
  induction m with
  | nil => simp [mapGet_cons]
  | cons p t ih =>
    by_cases hp : p.1 = k
    · simp [hasKey, hp] at h
    · simp only [hasKey, hp, if_false] at h
      rw [List.cons_append, mapGet_cons, if_neg hp]
      exact ih h

theorem mapGet_append_single_ne (m : List (String × Annotation)) (k k' : String)
    (v : Annotation) (h : k' ≠ k) :
    mapGet (m ++ [(k, v)]) k' = mapGet m k' := by
  induction m with
  | nil =>
    rw [List.nil_append, mapGet_nil, mapGet_cons, if_neg (fun hh => h hh.symm)]
    rfl
  | cons p t ih =>
    rw [List.cons_append, mapGet_cons, mapGet_cons]
    by_cases hp : p.1 = k'
    · simp [hp]
    · simp only [hp, if_false]
      exact ih

theorem mapGet_mapSet_self (m : List (String × Annotation)) (k : String)
    (v : Annotation) : mapGet (mapSet m k v) k = some v := by
  unfold mapSet
  by_cases h : hasKey m k = true
  · rw [if_pos h]
    exact mapGet_subst_self m k v h
  · rw [if_neg h]
    exact mapGet_append_single_self m k v (by simpa using h)

theorem mapGet_mapSet_ne (m : List (String × Annotation)) (k k' : String)
    (v : Annotation) (h : k' ≠ k) : mapGet (mapSet m k v) k' = mapGet m k' := by
  unfold mapSet
  by_cases hany : hasKey m k = true
  · rw [if_pos hany]
    exact mapGet_subst_ne m k k' v h
  · rw [if_neg hany]
    exact mapGet_append_single_ne m k k' v h

theorem hasKey_false (m : List (String × Annotation)) (k : String)
    (h : hasKey m k = false) : ∀ p ∈ m, p.1 ≠ k := by
  induction m with
  | nil => intro p hp; cases hp
  | cons q t ih =>
    by_cases hq : q.1 = k
    · simp [hasKey, hq] at h
    · simp only [hasKey, hq, if_false] at h
      intro p hp
      rcases List.mem_cons.mp hp with rfl | hp
      · exact hq
      · exact ih h p hp

theorem keysOK_mapSet (m : List (String × Annotation)) (v : Annotation)
    (hk : keysOK m) : keysOK (mapSet m v.id v) := by
  unfold mapSet
  by_cases h : hasKey m v.id = true
  · rw [if_pos h]
    intro p hp
    rcases List.mem_map.mp hp with ⟨q, hq, rfl⟩
    by_cases hq1 : q.1 = v.id
    · simp [hq1]
    · simpa [hq1] using hk q hq
  · rw [if_neg h]
    intro p hp
    rcases List.mem_append.mp hp with hp | hp
    · exact hk p hp
    · rcases List.mem_singleton.mp hp with rfl
      rfl

theorem nodupKeys_mapSet (m : List (String × Annotation)) (k : String)
    (v : Annotation) (hn : nodupKeys m) : nodupKeys (mapSet m k v) := by
  unfold mapSet
  by_cases h : hasKey m k = true
  · rw [if_pos h]
    have heq : (m.map fun q => if q.1 = k then (k, v) else q).map Prod.fst
        = m.map Prod.fst := by
      rw [List.map_map]
      apply List.map_congr_left
      intro q _
      by_cases hq1 : q.1 = k
      · simp [hq1]
      · simp [hq1]
    unfold nodupKeys
    rw [heq]
    exact hn
  · rw [if_neg h]
    unfold nodupKeys
    rw [List.map_append]
    rw [List.nodup_append]
    refine ⟨hn, List.nodup_singleton k, ?_⟩
    intro x hx hx2
    rcases List.mem_singleton.mp hx2 with rfl
    rcases List.mem_map.mp hx with ⟨p, hp, hpx⟩
    exact hasKey_false m x (by simpa using h) p hp hpx

theorem keysOK_mergeStep (m : List (String × Annotation)) (a : Annotation)
    (hk : keysOK m) : keysOK (mergeStep m a) := by
  rcases hg : mapGet m a.id with _ | ex
  · simpa only [mergeStep, hg] using keysOK_mapSet m a hk
  · simp only [mergeStep, hg]
    split
    · exact keysOK_mapSet m a hk
    · exact hk

theorem nodupKeys_mergeStep (m : List (String × Annotation)) (a : Annotation)
    (hn : nodupKeys m) : nodupKeys (mergeStep m a) := by
  rcases hg : mapGet m a.id with _ | ex
  · simpa only [mergeStep, hg] using nodupKeys_mapSet m a.id a hn
  · simp only [mergeStep, hg]
    split
    · exact nodupKeys_mapSet m a.id a hn
    · exact hn

theorem keysOK_seedFold (l : List Annotation) :
    ∀ m0, keysOK m0 → keysOK (l.foldl (fun m x => mapSet m x.id x) m0) := by
  induction l with
  | nil => exact fun m0 h => h
  | cons a t ih =>
    intro m0 h
    rw [List.foldl_cons]
    exact ih _ (keysOK_mapSet m0 a h)

theorem nodupKeys_seedFold (l : List Annotation) :
    ∀ m0, nodupKeys m0 → nodupKeys (l.foldl (fun m x => mapSet m x.id x) m0) := by
  induction l with
  | nil => exact fun m0 h => h
  | cons a t ih =>
    intro m0 h
    rw [List.foldl_cons]
    exact ih _ (nodupKeys_mapSet m0 a.id a h)

theorem keysOK_mergeFold (r : List Annotation) :
    ∀ m0, keysOK m0 → keysOK (r.foldl mergeStep m0) := by
  induction r with
  | nil => exact fun m0 h => h
  | cons a t ih =>
    intro m0 h
    rw [List.foldl_cons]
    exact ih _ (keysOK_mergeStep m0 a h)

theorem nodupKeys_mergeFold (r : List Annotation) :
    ∀ m0, nodupKeys m0 → nodupKeys (r.foldl mergeStep m0) := by
  induction r with
  | nil => exact fun m0 h => h
  | cons a t ih =>
    intro m0 h
    rw [List.foldl_cons]
    exact ih _ (nodupKeys_mergeStep m0 a h)

theorem keysOK_mergeMap (l r : List Annotation) : keysOK (mergeMap l r) :=
  keysOK_mergeFold r _ (keysOK_seedFold l [] (fun p hp => absurd hp (List.not_mem_nil p)))

theorem nodupKeys_mergeMap (l r : List Annotation) : nodupKeys (mergeMap l r) :=
  nodupKeys_mergeFold r _ (nodupKeys_seedFold l [] List.nodup_nil)

theorem mapGet_seedFold_not_mem (l : List Annotation) (i : String) :
    ∀ m0, (∀ x ∈ l, x.id ≠ i) →
      mapGet (l.foldl (fun m x => mapSet m x.id x) m0) i = mapGet m0 i := by
  induction l with
  | nil => exact fun m0 _ => rfl
  | cons a t ih =>
    intro m0 h
    rw [List.foldl_cons, ih _ (fun x hx => h x (List.mem_cons_of_mem a hx))]
    exact mapGet_mapSet_ne m0 a.id i a
      (fun hh => h a (List.mem_cons_self a t) hh.symm)

theorem mapGet_seedFold_unique (l : List Annotation) (a : Annotation) :
    ∀ m0, a ∈ l → (∀ x ∈ l, x.id = a.id → x = a) →
      mapGet (l.foldl (fun m x => mapSet m x.id x) m0) a.id = some a := by
  induction l with
  | nil => intro m0 hmem _; cases hmem
  | cons x t ih =>
    intro m0 hmem huniq
    rw [List.foldl_cons]
    by_cases hat : a ∈ t
    · exact ih _ hat (fun y hy hid => huniq y (List.mem_cons_of_mem x hy) hid)
    · have hxa : x = a := by
        rcases List.mem_cons.mp hmem with h | h
        · exact h.symm
        · exact absurd h hat
      have ht : ∀ y ∈ t, y.id ≠ a.id := by
        intro y hy hid
        exact hat ((huniq y (List.mem_cons_of_mem x hy) hid) ▸ hy)
      rw [mapGet_seedFold_not_mem t a.id _ ht, hxa]
      exact mapGet_mapSet_self m0 a.id a

theorem mapGet_mergeStep_ne (m : List (String × Annotation)) (x : Annotation)
    (i : String) (h : x.id ≠ i) : mapGet (mergeStep m x) i = mapGet m i := by
  rcases hg : mapGet m x.id with _ | ex
  · simp only [mergeStep, hg]
    exact mapGet_mapSet_ne m x.id i x (fun hh => h hh.symm)
  · simp only [mergeStep, hg]
    split
    · exact mapGet_mapSet_ne m x.id i x (fun hh => h hh.symm)
    · rfl

theorem mapGet_mergeStep_some (m : List (String × Annotation)) (b a : Annotation)
    (h : mapGet m b.id = some a) :
    mapGet (mergeStep m b) b.id
      = some (if a.modifiedAt < b.modifiedAt then b else a) := by
  simp only [mergeStep, h]
  by_cases hlt : a.modifiedAt < b.modifiedAt
  · rw [if_pos hlt, if_pos hlt]
    exact mapGet_mapSet_self m b.id b
  · rw [if_neg hlt, if_neg hlt]
    exact h

theorem mapGet_mergeStep_none (m : List (String × Annotation)) (b : Annotation)
    (h : mapGet m b.id = none) : mapGet (mergeStep m b) b.id = some b := by
  simp only [mergeStep, h]
  exact mapGet_mapSet_self m b.id b

theorem mapGet_mergeFold_not_mem (r : List Annotation) (i : String) :
    ∀ m0, (∀ x ∈ r, x.id ≠ i) →
      mapGet (r.foldl mergeStep m0) i = mapGet m0 i := by
  induction r with
  | nil => exact fun m0 _ => rfl
  | cons a t ih =>
    intro m0 h
    rw [List.foldl_cons, ih _ (fun x hx => h x (List.mem_cons_of_mem a hx))]
    exact mapGet_mergeStep_ne m0 a i (h a (List.mem_cons_self a t))

theorem mapGet_mergeFold_unique (r : List Annotation) (b : Annotation) :
    ∀ m0 a, b ∈ r → (∀ x ∈ r, x.id = b.id → x = b) → mapGet m0 b.id = some a →
      mapGet (r.foldl mergeStep m0) b.id
        = some (if a.modifiedAt < b.modifiedAt then b else a) := by
  induction r with
  | nil => intro m0 a hmem; cases hmem
  | cons x t ih =>
    intro m0 a hmem huniq hget
    rw [List.foldl_cons]
    by_cases hx : x.id = b.id
    · have hxb : x = b := huniq x (List.mem_cons_self x t) hx
      subst hxb
      have h1 : mapGet (mergeStep m0 x) x.id
          = some (if a.modifiedAt < x.modifiedAt then x else a) :=
        mapGet_mergeStep_some m0 x a hget
      by_cases hbt : x ∈ t
      · have h2 := ih (mergeStep m0 x) (if a.modifiedAt < x.modifiedAt then x else a)
          hbt (fun y hy hid => huniq y (List.mem_cons_of_mem x hy) hid) h1
        rw [h2]
        congr 1
        by_cases hlt : a.modifiedAt < x.modifiedAt
        · rw [if_pos hlt]
          simp
        · rw [if_neg hlt, if_neg hlt]
      · have ht : ∀ y ∈ t, y.id ≠ x.id := by
          intro y hy hid
          exact hbt ((huniq y (List.mem_cons_of_mem x hy) hid) ▸ hy)
        rw [mapGet_mergeFold_not_mem t x.id _ ht]
        exact h1
    · have h1 : mapGet (mergeStep m0 x) b.id = some a := by
        rw [mapGet_mergeStep_ne m0 x b.id hx]
        exact hget
      have hbt : b ∈ t := by
        rcases List.mem_cons.mp hmem with rfl | h
        · exact absurd rfl hx
        · exact h
      exact ih _ a hbt (fun y hy hid => huniq y (List.mem_cons_of_mem x hy) hid) h1

theorem mapGet_mergeFold_unique_none (r : List Annotation) (b : Annotation) :
    ∀ m0, b ∈ r → (∀ x ∈ r, x.id = b.id → x = b) → mapGet m0 b.id = none →
      mapGet (r.foldl mergeStep m0) b.id = some b := by
  induction r with
  | nil => intro m0 hmem; cases hmem
  | cons x t ih =>
    intro m0 hmem huniq hget
    rw [List.foldl_cons]
    by_cases hx : x.id = b.id
    · have hxb : x = b := huniq x (List.mem_cons_self x t) hx
      subst hxb
      have h1 : mapGet (mergeStep m0 x) x.id = some x :=
        mapGet_mergeStep_none m0 x hget
      by_cases hbt : x ∈ t
      · have h2 := mapGet_mergeFold_unique t x (mergeStep m0 x) x hbt
          (fun y hy hid => huniq y (List.mem_cons_of_mem x hy) hid) h1
        rw [h2]
        simp
      · have ht : ∀ y ∈ t, y.id ≠ x.id := by
          intro y hy hid
          exact hbt ((huniq y (List.mem_cons_of_mem x hy) hid) ▸ hy)
        rw [mapGet_mergeFold_not_mem t x.id _ ht]
        exact h1
    · have h1 : mapGet (mergeStep m0 x) b.id = none := by
        rw [mapGet_mergeStep_ne m0 x b.id hx]
        exact hget
      have hbt : b ∈ t := by
        rcases List.mem_cons.mp hmem with rfl | h
        · exact absurd rfl hx
        · exact h
      exact ih _ hbt (fun y hy hid => huniq y (List.mem_cons_of_mem x hy) hid) h1

theorem mem_values_of_mapGet (m : List (String × Annotation)) (i : String)
    (v : Annotation) (h : mapGet m i = some v) : v ∈ m.map Prod.snd := by
  induction m with
  | nil => cases h
  | cons p t ih =>
    rw [mapGet_cons] at h
    by_cases hp : p.1 = i
    · rw [if_pos hp] at h
      injection h with h
      rw [List.map_cons, h]
      exact List.mem_cons_self _ _
    · rw [if_neg hp] at h
      exact List.mem_cons_of_mem _ (ih h)

theorem values_filter_nil_aux (m : List (String × Annotation)) (i : String)
    (hk : keysOK m) (h : ∀ p ∈ m, p.1 ≠ i) :
    (m.map Prod.snd).filter (fun x => x.id == i) = [] := by
  induction m with
  | nil => rfl
  | cons p t ih =>
    rw [List.map_cons, List.filter_cons]
    have hpid : p.2.id ≠ i := by
      rw [hk p (List.mem_cons_self p t)]
      exact h p (List.mem_cons_self p t)
    simp only [hpid, beq_iff_eq, if_false, decide_eq_true_eq]
    exact ih (fun q hq => hk q (List.mem_cons_of_mem p hq))
      (fun q hq => h q (List.mem_cons_of_mem p hq))

theorem values_filter_of_mapGet (m : List (String × Annotation)) (i : String)
    (v : Annotation) (hk : keysOK m) (hn : nodupKeys m)
    (h : mapGet m i = some v) :
    (m.map Prod.snd).filter (fun x => x.id == i) = [v] := by
  induction m with
  | nil => cases h
  | cons p t ih =>
    rw [mapGet_cons] at h
    have hnt : nodupKeys t := by
      have := hn
      unfold nodupKeys at this ⊢
      rw [List.map_cons, List.nodup_cons] at this
      exact this.2
    have hmem1 : p.1 ∉ t.map Prod.fst := by
      have := hn
      unfold nodupKeys at this
      rw [List.map_cons, List.nodup_cons] at this
      exact this.1
    by_cases hp : p.1 = i
    · rw [if_pos hp] at h
      injection h with h
      rw [List.map_cons, List.filter_cons]
      have hpid : p.2.id = i := by rw [hk p (List.mem_cons_self p t), hp]
      rw [if_pos (by simpa using hpid)]
      rw [h]
      have ht : ∀ q ∈ t, q.1 ≠ i := by
        intro q hq hqi
        exact hmem1 (hp ▸ hqi ▸ List.mem_map_of_mem Prod.fst hq)
      rw [values_filter_nil_aux t i
        (fun q hq => hk q (List.mem_cons_of_mem p hq)) ht]
    · rw [if_neg hp] at h
      rw [List.map_cons, List.filter_cons]
      have hpid : p.2.id ≠ i := by
        rw [hk p (List.mem_cons_self p t)]
        exact hp
      rw [if_neg (by simpa using hpid)]
      exact ih (fun q hq => hk q (List.mem_cons_of_mem p hq)) hnt h

-- ---------------------------------------------------------------------------
-- Order facts about the sort comparator
-- ---------------------------------------------------------------------------

theorem annLE_iff (a b : Annotation) :
    annLE a b = true ↔
      (a.page < b.page ∨ (a.page = b.page ∧ yPos b ≤ yPos a)) := by
  unfold annLE
  by_cases h : a.page = b.page
  · simp [h]
  · simp [h]

theorem annLE_trans (a b c : Annotation) (h1 : annLE a b = true)
    (h2 : annLE b c = true) : annLE a c = true := by
  rw [annLE_iff] at h1 h2 ⊢
  rcases h1 with h1 | ⟨h1, h1y⟩ <;> rcases h2 with h2 | ⟨h2, h2y⟩
  · exact Or.inl (h1.trans h2)
  · exact Or.inl (h2 ▸ h1)
  · exact Or.inl (h1 ▸ h2)
  · exact Or.inr ⟨h1.trans h2, h2y.trans h1y⟩

theorem annLE_total (a b : Annotation) : (annLE a b || annLE b a) = true := by
  rw [Bool.or_eq_true, annLE_iff, annLE_iff]
  omega

-- ---------------------------------------------------------------------------
-- Example annotations (fixtures used by concrete instances below)
-- ---------------------------------------------------------------------------

/-- Example highlight `h1` from the spec's end-to-end scenario. -/
def annH1 : Annotation :=
  { id := "h1", type := .highlight, page := 1,
    rects := some [{ x1 := 72, y1 := 700, x2 := 540, y2 := 712 }],
    color := some "#FFFF00", text := some "highlighted text",
    createdBy := "alice", createdAt := 1, modifiedAt := 1 }

/-- Example note `n1` from the spec's end-to-end scenario. -/
def annN1 : Annotation :=
  { id := "n1", type := .note, page := 2,
    position := some { x := 100, y := 500 },
    content := some "a note", createdBy := "bob",
    createdAt := 2, modifiedAt := 2 }

/-- A locally edited annotation sharing the id of `annShRemote`. -/
def annShLocal : Annotation :=
  { id := "shared", type := .highlight, page := 1,
    rects := some [{ x1 := 0, y1 := 10, x2 := 5, y2 := 12 }],
    comment := some "local edit", createdBy := "alice",
    createdAt := 0, modifiedAt := 2 }

/-- The remote edit of the same annotation, with later `modifiedAt`. -/
def annShRemote : Annotation :=
  { annShLocal with comment := some "remote edit", modifiedAt := 3 }

/-- A local annotation whose id also occurs in remote with a newer edit. -/
def annX : Annotation :=
  { id := "x", type := .highlight, page := 1, createdBy := "u",
    createdAt := 0, modifiedAt := 10 }

/-- The newer remote edit of `annX` (same id, later `modifiedAt`). -/
def annXNewer : Annotation :=
  { annX with comment := some "remote rewrite", modifiedAt := 20 }

/-- A remote-only annotation with an id unrelated to `annX`. -/
def annY : Annotation :=
  { id := "y", type := .note, page := 1, position := some { x := 0, y := 0 },
    createdBy := "v", createdAt := 0, modifiedAt := 0 }

/-- Page-2 annotation with `y1 = 100` (sort example of §8). -/
def annP2Y100 : Annotation :=
  { id := "a", type := .highlight, page := 2,
    rects := some [{ x1 := 0, y1 := 100, x2 := 100, y2 := 112 }],
    createdBy := "u", createdAt := 0, modifiedAt := 0 }

/-- Page-1 annotation with `y1 = 500` (sort example of §8). -/
def annP1Y500 : Annotation :=
  { id := "b", type := .highlight, page := 1,
    rects := some [{ x1 := 0, y1 := 500, x2 := 100, y2 := 512 }],
    createdBy := "u", createdAt := 0, modifiedAt := 0 }

/-- Page-1 annotation with `y1 = 700` (sort example of §8). -/
def annP1Y700 : Annotation :=
  { id := "c", type := .highlight, page := 1,
    rects := some [{ x1 := 0, y1 := 700, x2 := 100, y2 := 712 }],
    createdBy := "u", createdAt := 0, modifiedAt := 0 }

-- ---------------------------------------------------------------------------
-- C2: same-id conflict keeps the strictly later modifiedAt, ties keep local
-- ---------------------------------------------------------------------------

/-- C2: if `local` and `remote` each contain exactly one annotation with a
shared id, then `mergeAnnotations local remote` yields exactly one annotation
with that id, namely the remote one when its `modifiedAt` is strictly later
and the local one otherwise (so ties keep the local-seeded entry). -/
theorem c2_merge_same_id (la ra : List Annotation) (a b : Annotation)
    (hal : a ∈ la) (hbr : b ∈ ra) (hid : b.id = a.id)
    (hula : ∀ x ∈ la, x.id = a.id → x = a)
    (hura : ∀ x ∈ ra, x.id = a.id → x = b) :
    (mergeAnnotations la ra).filter (fun x => x.id == a.id)
      = [if a.modifiedAt < b.modifiedAt then b else a] := by
  have hseed : mapGet (seedMap la) a.id = some a :=
    mapGet_seedFold_unique la a [] hal hula
  have hmerged : mapGet (mergeMap la ra) a.id
      = some (if a.modifiedAt < b.modifiedAt then b else a) := by
    have hs : mapGet (seedMap la) b.id = some a := by rw [hid]; exact hseed
    have h := mapGet_mergeFold_unique ra b (seedMap la) a hbr
      (fun x hx hxid => hura x hx (hid ▸ hxid)) hs
    rw [hid] at h
    exact h
  have hfilter := values_filter_of_mapGet (mergeMap la ra) a.id _
    (keysOK_mergeMap la ra) (nodupKeys_mergeMap la ra) hmerged
  have hperm := List.Perm.filter (fun x => x.id == a.id)
    (List.mergeSort_perm ((mergeMap la ra).map Prod.snd) annLE)
  rw [hfilter] at hperm
  exact List.perm_singleton.mp hperm

/-- Witness for C2 at the repo's own test fixture: the remote edit has the
strictly later `modifiedAt`, so it is the unique survivor for the shared id. -/
theorem c2_merge_same_id_witness :
    (mergeAnnotations [annShLocal] [annShRemote]).filter
      (fun x => x.id == annShLocal.id) = [annShRemote] := by
  have h := c2_merge_same_id [annShLocal] [annShRemote] annShLocal annShRemote
    (by decide) (by decide) (by decide) (by decide) (by decide)
  rw [h]
  decide

-- ---------------------------------------------------------------------------
-- C3: union property for distinct ids
-- ---------------------------------------------------------------------------

/-- C3 counterexample: the literal claim "for every a ∈ local and b ∈ remote
with a.id ≠ b.id the merge contains both a and b" is false: when remote also
carries a newer edit of a's id, a itself is replaced and absent from the
result, even though some b ∈ remote has a different id. -/
theorem c3_union_counterexample :
    annX ∈ [annX] ∧ annY ∈ [annXNewer, annY] ∧ annX.id ≠ annY.id ∧
      annX ∉ mergeAnnotations [annX] [annXNewer, annY] := by
  refine ⟨by decide, by decide, by decide, ?_⟩
  unfold mergeAnnotations
  rw [List.mem_mergeSort]
  decide

/-- C3 (amended): for a ∈ local and b ∈ remote with a.id ≠ b.id, provided a
is the only annotation carrying its id in local and its id does not occur in
remote at all, and symmetrically for b, the merge contains both a and b. -/
theorem c3_union_amended (la ra : List Annotation) (a b : Annotation)
    (hal : a ∈ la) (hbr : b ∈ ra) (_ : a.id ≠ b.id)
    (hula : ∀ x ∈ la, x.id = a.id → x = a)
    (hranota : ∀ x ∈ ra, x.id ≠ a.id)
    (hurb : ∀ x ∈ ra, x.id = b.id → x = b)
    (hlanotb : ∀ x ∈ la, x.id ≠ b.id) :
    a ∈ mergeAnnotations la ra ∧ b ∈ mergeAnnotations la ra := by
  constructor
  · have h1 : mapGet (seedMap la) a.id = some a :=
      mapGet_seedFold_unique la a [] hal hula
    have h2 : mapGet (mergeMap la ra) a.id = some a := by
      have h := mapGet_mergeFold_not_mem ra a.id (seedMap la) hranota
      exact h.trans h1
    unfold mergeAnnotations
    rw [List.mem_mergeSort]
    exact mem_values_of_mapGet _ _ _ h2
  · have h1 : mapGet (seedMap la) b.id = none :=
      mapGet_seedFold_not_mem la b.id [] hlanotb
    have h2 : mapGet (mergeMap la ra) b.id = some b :=
      mapGet_mergeFold_unique_none ra b (seedMap la) hbr hurb h1
    unfold mergeAnnotations
    rw [List.mem_mergeSort]
    exact mem_values_of_mapGet _ _ _ h2

/-- Witness for the amended C3 at the spec's disjoint `{h1}` / `{n1}`
scenario: both annotations survive the merge. -/
theorem c3_union_amended_witness :
    annH1 ∈ mergeAnnotations [annH1] [annN1] ∧
      annN1 ∈ mergeAnnotations [annH1] [annN1] :=
  c3_union_amended [annH1] [annN1] annH1 annN1 (by decide) (by decide)
    (by decide) (by decide) (by decide) (by decide) (by decide)

-- ---------------------------------------------------------------------------
-- C4: output ordering
-- ---------------------------------------------------------------------------

/-- Helper for pinning down a concrete sort result: a three-element list that
is a permutation of `[annP2Y100, annP1Y500, annP1Y700]` and `annLE`-sorted
must be `[annP1Y700, annP1Y500, annP2Y100]`. -/
theorem sorted_perm_example_unique (v : List Annotation)
    (hperm : v.Perm [annP2Y100, annP1Y500, annP1Y700])
    (hsor : v.Pairwise (fun x y => annLE x y = true)) :
    v = [annP1Y700, annP1Y500, annP2Y100] := by
  have hlen : v.length = 3 := hperm.length_eq
  rcases v with _ | ⟨x0, v⟩
  · simp at hlen
  rcases v with _ | ⟨x1, v⟩
  · simp at hlen
  rcases v with _ | ⟨x2, v⟩
  · simp at hlen
  rcases v with _ | ⟨x3, v⟩
  · have h0 : x0 ∈ [annP2Y100, annP1Y500, annP1Y700] :=
      hperm.mem_iff.mp (by simp)
    have h1 : x1 ∈ [annP2Y100, annP1Y500, annP1Y700] :=
      hperm.mem_iff.mp (by simp)
    have h2 : x2 ∈ [annP2Y100, annP1Y500, annP1Y700] :=
      hperm.mem_iff.mp (by simp)
    simp only [List.mem_cons, List.not_mem_nil, or_false] at h0 h1 h2
    rcases h0 with rfl | rfl | rfl <;> rcases h1 with rfl | rfl | rfl <;>
      rcases h2 with rfl | rfl | rfl <;>
      first
        | rfl
        | exact absurd hperm (by decide)
        | exact absurd hsor (by decide)
  · simp at hlen

/-- C4: the output of `mergeAnnotations` is always ordered by ascending page
and, within a page, by descending vertical position (`yPos`: the first
rectangle's `y1`, else the note point's `y`, else `0`); and on the §8
example with pages `{2,1,1}` and y-values `{100,500,700}` the output order is
`[page1/y700, page1/y500, page2/y100]`. -/
theorem c4_merge_sorted :
    (∀ la ra : List Annotation, (mergeAnnotations la ra).Pairwise
      (fun x y => x.page < y.page ∨ (x.page = y.page ∧ yPos y ≤ yPos x))) ∧
    mergeAnnotations [annP2Y100, annP1Y500, annP1Y700] []
      = [annP1Y700, annP1Y500, annP2Y100] := by
  constructor
  · intro la ra
    have h := List.sorted_mergeSort annLE_trans annLE_total
      ((mergeMap la ra).map Prod.snd)
    exact h.imp (fun hab => (annLE_iff _ _).mp hab)
  · have e : mergeAnnotations [annP2Y100, annP1Y500, annP1Y700] []
        = List.mergeSort [annP2Y100, annP1Y500, annP1Y700] annLE := rfl
    rw [e]
    exact sorted_perm_example_unique _ (List.mergeSort_perm _ _)
      (List.sorted_mergeSort annLE_trans annLE_total _)

-- ---------------------------------------------------------------------------
-- Sidecar envelope (types.ts `AnnotationSidecar`, annotation.service.ts)
-- ---------------------------------------------------------------------------

/-- The persisted sidecar envelope (interface `AnnotationSidecar`).
`lastModified` is an instant, like the annotation timestamps. -/
structure AnnotationSidecar where
  schemaVersion : Int
  attachmentId : String
  lastModified : Nat
  version : Int
  createdBy : String
  annotations : List Annotation
deriving DecidableEq, Repr

/-- `buildSidecar` (annotation.service.ts, lines 68-82): pure constructor.
The source stamps `new Date().toISOString()` as `lastModified`; the current
time is passed explicitly as `now`. -/
def buildSidecar (attachmentId : String) (annotations : List Annotation)
    (version : Int) (createdBy : String) (now : Nat) : AnnotationSidecar :=
  { schemaVersion := 1, attachmentId := attachmentId, lastModified := now,
    version := version, createdBy := createdBy, annotations := annotations }

/-- A parsed JSON value, for modelling the untrusted input of `parseSidecar`. -/
inductive Json where
  | null
  | boolean (b : Bool)
  | num (n : Int)
  | str (s : String)
  | arr (xs : List Json)
  | obj (fields : List (String × Json))

/-- JavaScript property access `data.k` on a parsed JSON object (`none` is
`undefined`; JSON.parse yields objects with distinct keys). -/
def getField : List (String × Json) → String → Option Json
  | [], _ => none
  | p :: o, k => if p.1 = k then some p.2 else getField o k

/-- The strict comparison `x !== 1`, negated: true iff the field value is the
number `1` (an absent field, `undefined`, is not `1`). -/
def isNumOne : Option Json → Bool
  | some (Json.num n) => n == 1
  | _ => false

/-- `Array.isArray(x)` on an optional field value. -/
def isArr : Option Json → Bool
  | some (Json.arr _) => true
  | _ => false

/-- The two failure kinds of `parseSidecar`: the source throws `Error`s whose
messages distinguish them ("Unsupported annotation schema version: ..." vs
"Invalid sidecar: annotations must be an array"). -/
inductive SidecarError where
  | schemaVersionError
  | malformedEnvelope
deriving DecidableEq, Repr

/-- `parseSidecar` (annotation.service.ts, lines 88-97), applied to the
already-JSON-parsed object: first rejects any `schemaVersion` other than the
number `1`, then rejects a non-array `annotations` field, otherwise returns
the envelope. -/
def parseSidecar (data : List (String × Json)) :
    Except SidecarError (List (String × Json)) :=
  if !(isNumOne (getField data "schemaVersion")) then
    .error .schemaVersionError
  else if !(isArr (getField data "annotations")) then
    .error .malformedEnvelope
  else
    .ok data

/-- Envelope with `schemaVersion: 99` and a well-formed annotations array. -/
def envSchema99 : List (String × Json) :=
  [("schemaVersion", Json.num 99), ("attachmentId", Json.str "att-1"),
   ("annotations", Json.arr [])]

/-- Envelope with `schemaVersion: 1` but a string in place of the array. -/
def envBadAnnotations : List (String × Json) :=
  [("schemaVersion", Json.num 1), ("attachmentId", Json.str "att-1"),
   ("annotations", Json.str "not-an-array")]

/-- A well-formed envelope. -/
def envGood : List (String × Json) :=
  [("schemaVersion", Json.num 1), ("attachmentId", Json.str "att-1"),
   ("annotations", Json.arr [Json.obj []])]

/-- Envelope failing both checks at once. -/
def envBothBad : List (String × Json) :=
  [("schemaVersion", Json.num 99),
   ("annotations", Json.str "not-an-array")]

-- ---------------------------------------------------------------------------
-- C9: parseSidecar failure kinds
-- ---------------------------------------------------------------------------

/-- C9 counterexample: the literal claim "parseSidecar fails with a
MalformedEnvelopeError for every input whose annotations field is not an
array" is false: on an input whose `schemaVersion` is also unsupported, the
schema check runs first and the failure is the SchemaVersionError. -/
theorem c9_parse_counterexample :
    isArr (getField envBothBad "annotations") = false ∧
    parseSidecar envBothBad = .error .schemaVersionError ∧
    parseSidecar envBothBad ≠ .error .malformedEnvelope := by
  refine ⟨rfl, rfl, ?_⟩
  intro h
  have h2 : SidecarError.schemaVersionError = SidecarError.malformedEnvelope := by
    have h1 : (Except.error .schemaVersionError :
        Except SidecarError (List (String × Json))) = .error .malformedEnvelope := h
    injection h1
  cases h2

/-- C9 (amended): `parseSidecar` fails with the SchemaVersionError on every
input whose `schemaVersion` is not the number `1`; fails with the
MalformedEnvelopeError on every input that passes the schema check but whose
`annotations` field is not an array; returns the envelope when both checks
pass; and the two failure kinds are distinct. -/
theorem c9_parse_amended (data : List (String × Json)) :
    (isNumOne (getField data "schemaVersion") = false →
      parseSidecar data = .error .schemaVersionError) ∧
    (isNumOne (getField data "schemaVersion") = true →
      isArr (getField data "annotations") = false →
      parseSidecar data = .error .malformedEnvelope) ∧
    (isNumOne (getField data "schemaVersion") = true →
      isArr (getField data "annotations") = true →
      parseSidecar data = .ok data) ∧
    SidecarError.schemaVersionError ≠ SidecarError.malformedEnvelope := by
  refine ⟨?_, ?_, ?_, by decide⟩
  · intro h1
    unfold parseSidecar
    rw [h1]
    rfl
  · intro h1 h2
    unfold parseSidecar
    rw [h1, h2]
    rfl
  · intro h1 h2
    unfold parseSidecar
    rw [h1, h2]
    rfl

/-- Witness for the amended C9: `schemaVersion: 99` yields the schema-version
failure, a non-array `annotations` under `schemaVersion: 1` yields the
malformed-envelope failure, and a good envelope parses. -/
theorem c9_parse_amended_witness :
    parseSidecar envSchema99 = .error .schemaVersionError ∧
    parseSidecar envBadAnnotations = .error .malformedEnvelope ∧
    parseSidecar envGood = .ok envGood :=
  ⟨(c9_parse_amended envSchema99).1 rfl,
   (c9_parse_amended envBadAnnotations).2.1 rfl rfl,
   (c9_parse_amended envGood).2.2.1 rfl rfl⟩

-- ---------------------------------------------------------------------------
-- Annotation sets and the two sidecar-upload paths (C5, C6)
-- ---------------------------------------------------------------------------

/-- The domain `AnnotationSet` (types.ts): the mutable container of one
attachment's annotations together with its sync bookkeeping. -/
structure AnnotationSet where
  id : String
  attachmentId : String
  annotations : List Annotation
  driveFileId : Option String
  driveRevision : Option String
  localVersion : Int
  remoteVersion : Int
  isDirty : Bool
  createdBy : Option String
  createdAt : Nat
  modifiedAt : Nat
deriving DecidableEq, Repr

/-- The sidecar content uploaded by the update-existing branch of
`LibraryService.saveAnnotations` (library.service.ts, lines 485-505):
`sidecarData` starts from the freshly saved annotations with
`version = localVersion + 1`; when the remote head revision differs from the
locally recorded `driveRevision` (`remoteMeta.headRevisionId !==
annotationSet.driveRevision`), the annotations are replaced by
`mergeAnnotations(annotations, remoteData.annotations)` and the version by
`Math.max(newVersion, remoteData.version) + 1` before `updateFile`. -/
def saveAnnotationsSidecar (attachmentId : String) (annotationSet : AnnotationSet)
    (annotations : List Annotation) (remoteHead : String)
    (remoteData : AnnotationSidecar) (user : String) (now : Nat) :
    AnnotationSidecar :=
  let newVersion := annotationSet.localVersion + 1
  let base : AnnotationSidecar :=
    { schemaVersion := 1, attachmentId := attachmentId, lastModified := now,
      version := newVersion, createdBy := user, annotations := annotations }
  if some remoteHead ≠ annotationSet.driveRevision then
    { base with
      annotations := mergeAnnotations annotations remoteData.annotations,
      version := max newVersion remoteData.version + 1 }
  else
    base

/-- The sidecar content uploaded by `SyncService.processAnnotationUpload`
(sync.service.ts, lines 301-320) when the set already has a remote file:
`buildSidecar(attachmentId, annotationSet.annotations, localVersion, user)`
passed to `updateFile` — with no `getFileMetadata` call and no revision
comparison anywhere in the handler. -/
def processAnnotationUploadSidecar (annotationSet : AnnotationSet)
    (user : String) (now : Nat) : AnnotationSidecar :=
  buildSidecar annotationSet.attachmentId annotationSet.annotations
    annotationSet.localVersion user now

/-- An annotation set queued for upload: local annotations `{h1}` saved at
local version 2, last seen remote revision `rev-1`. -/
def queuedSet : AnnotationSet :=
  { id := "as-1", attachmentId := "att-1", annotations := [annH1],
    driveFileId := some "file-1", driveRevision := some "rev-1",
    localVersion := 2, remoteVersion := 1, isDirty := true,
    createdBy := some "alice", createdAt := 0, modifiedAt := 5 }

/-- The remote sidecar meanwhile advanced to revision `rev-2` and carries the
foreign annotation `{n1}`. -/
def queuedRemoteData : AnnotationSidecar :=
  { schemaVersion := 1, attachmentId := "att-1", lastModified := 4,
    version := 1, createdBy := "bob", annotations := [annN1] }

-- ---------------------------------------------------------------------------
-- C5: the queue's annotation handler skips the conflict check
-- ---------------------------------------------------------------------------

/-- C5 divergence, at a concrete state where the remote sidecar has moved to
head revision `rev-2` (≠ the recorded `rev-1`) and contains `n1`: the
upload-queue handler uploads the local-only sidecar unchanged — `n1` is
absent from what it writes — whereas the save path's conflict check at the
same state merges `n1` in.  The handler therefore does not perform the
claimed revision compare-and-merge. -/
theorem c5_queue_overwrites_without_check :
    queuedSet.driveFileId = some "file-1" ∧
    some "rev-2" ≠ queuedSet.driveRevision ∧
    (processAnnotationUploadSidecar queuedSet "alice" 9).annotations = [annH1] ∧
    annN1 ∉ (processAnnotationUploadSidecar queuedSet "alice" 9).annotations ∧
    annN1 ∈ (saveAnnotationsSidecar "att-1" queuedSet [annH1] "rev-2"
      queuedRemoteData "alice" 9).annotations := by
  refine ⟨rfl, by decide, rfl, by decide, ?_⟩
  show annN1 ∈ mergeAnnotations [annH1] [annN1]
  unfold mergeAnnotations
  rw [List.mem_mergeSort]
  decide

-- ---------------------------------------------------------------------------
-- C6: the save path's conflict check merges and bumps the version
-- ---------------------------------------------------------------------------

/-- C6: whenever `saveAnnotations` updates an existing remote sidecar and the
remote head revision differs from the recorded `driveRevision`, the uploaded
envelope carries `mergeAnnotations(local, remote)` and version
`max(localVersion + 1, remote.version) + 1`. -/
theorem c6_save_conflict_merges (attachmentId : String)
    (annotationSet : AnnotationSet) (annotations : List Annotation)
    (remoteHead : String) (remoteData : AnnotationSidecar)
    (user : String) (now : Nat)
    (h : some remoteHead ≠ annotationSet.driveRevision) :
    (saveAnnotationsSidecar attachmentId annotationSet annotations remoteHead
        remoteData user now).annotations
      = mergeAnnotations annotations remoteData.annotations ∧
    (saveAnnotationsSidecar attachmentId annotationSet annotations remoteHead
        remoteData user now).version
      = max (annotationSet.localVersion + 1) remoteData.version + 1 := by
  unfold saveAnnotationsSidecar
  rw [if_pos h]
  exact ⟨rfl, rfl⟩

/-- Witness for C6 at the §8 scenario: local `{h1}` at local version 2,
remote `{n1}` at version 1 under a moved revision tag; the uploaded sidecar
holds both annotations (length 2) and version `max(3, 1) + 1 = 4`. -/
theorem c6_save_conflict_merges_witness :
    (saveAnnotationsSidecar "att-1" queuedSet [annH1] "rev-2" queuedRemoteData
        "alice" 9).annotations.length = 2 ∧
    annH1 ∈ (saveAnnotationsSidecar "att-1" queuedSet [annH1] "rev-2"
        queuedRemoteData "alice" 9).annotations ∧
    annN1 ∈ (saveAnnotationsSidecar "att-1" queuedSet [annH1] "rev-2"
        queuedRemoteData "alice" 9).annotations ∧
    (saveAnnotationsSidecar "att-1" queuedSet [annH1] "rev-2" queuedRemoteData
        "alice" 9).version = 4 := by
  have h := c6_save_conflict_merges "att-1" queuedSet [annH1] "rev-2"
    queuedRemoteData "alice" 9 (by decide)
  refine ⟨?_, ?_, ?_, ?_⟩
  · rw [h.1]
    unfold mergeAnnotations
    rw [List.length_mergeSort]
    decide
  · rw [h.1]
    unfold mergeAnnotations
    rw [List.mem_mergeSort]
    decide
  · rw [h.1]
    unfold mergeAnnotations
    rw [List.mem_mergeSort]
    decide
  · rw [h.2]
    decide

-- ---------------------------------------------------------------------------
-- Item rows and the sync-loop pull phase (C1)
-- ---------------------------------------------------------------------------

/-- A raw `items` row (interface `ItemRow` in types.ts): JSON-typed columns
are opaque text, `deleted` is the SQLite integer flag.  `createdAt` and
`modifiedAt` are kept as the raw TEXT strings: local mutations write them
with SQLite's `datetime('now')` (`"YYYY-MM-DD HH:MM:SS"`), while the sync
cursor and backend rows use `toISOString()` (`"YYYY-MM-DDTHH:MM:SS.sssZ"`),
and the sync loop compares these strings directly. -/
structure ItemRow where
  id : String
  libraryId : String
  itemType : String
  title : Option String
  authors : Option String
  year : Option String
  journal : Option String
  volume : Option String
  issue : Option String
  pages : Option String
  doi : Option String
  isbn : Option String
  abstract : Option String
  tags : Option String
  extra : Option String
  createdBy : Option String
  createdAt : String
  modifiedAt : String
  version : Int
  deleted : Int
deriving DecidableEq, Repr

/-- Lexicographic comparison of the underlying character sequences: for the
ASCII timestamp strings compared by the sync loop this is exactly
JavaScript's string `<` (code-unit order). -/
def charListLt : List Char → List Char → Bool
  | [], [] => false
  | [], _ :: _ => true
  | _ :: _, [] => false
  | a :: as, b :: bs =>
    if a < b then true else if b < a then false else charListLt as bs

/-- JavaScript string `<` (so `a > b` in the source is `strLt b a`). -/
def strLt (a b : String) : Bool :=
  charListLt a.data b.data

/-- The aggregate `SyncResult` counters. -/
structure SyncResult where
  pushed : Nat
  pulled : Nat
  conflicts : Nat
  errors : Nat
deriving DecidableEq, Repr

/-- `SELECT * FROM items WHERE id = ?` (first matching row; `id` is the
primary key). -/
def findItem (items : List ItemRow) (i : String) : Option ItemRow :=
  items.find? (fun r => r.id == i)

/-- `UPDATE items ... WHERE id = ?`: rewrites every row carrying the id. -/
def updateItemRows (items : List ItemRow) (i : String)
    (f : ItemRow → ItemRow) : List ItemRow :=
  items.map (fun r => if r.id = i then f r else r)

/-- The row inserted for a brand-new remote item (sync.service.ts, lines
72-99): the INSERT lists every column except `deleted`, which takes the
schema default `0`. -/
def insertRemoteItem (remote : ItemRow) : ItemRow :=
  { remote with deleted := 0 }

/-- The overwrite applied when the remote item is newer and the local row is
clean (sync.service.ts, lines 108-133): the UPDATE sets the metadata columns,
`version`, `modifiedAt` and `deleted` from the remote row and leaves `id`,
`libraryId`, `itemType`, `createdBy` and `createdAt` untouched. -/
def overwriteFromRemote (remote localRow : ItemRow) : ItemRow :=
  { localRow with
    title := remote.title, authors := remote.authors, year := remote.year,
    journal := remote.journal, volume := remote.volume, issue := remote.issue,
    pages := remote.pages, doi := remote.doi, isbn := remote.isbn,
    abstract := remote.abstract, tags := remote.tags, extra := remote.extra,
    version := remote.version, modifiedAt := remote.modifiedAt,
    deleted := remote.deleted }

/-- One iteration of the pull loop of `SyncService.syncLoop` (lines 65-137)
for a single pulled remote item: insert when unknown locally; when known and
`remote.version > local.version`, either count a conflict when the dirty
check `local.modifiedAt > lastSync` — a JavaScript string comparison of the
two timestamp TEXTs — holds, or overwrite the local row; otherwise no-op. -/
def pullRemoteItem (lastSync : String) (st : List ItemRow × SyncResult)
    (remote : ItemRow) : List ItemRow × SyncResult :=
  match findItem st.1 remote.id with
  | none =>
    (st.1 ++ [insertRemoteItem remote],
     { st.2 with pulled := st.2.pulled + 1 })
  | some localRow =>
    if remote.version > localRow.version then
      if strLt lastSync localRow.modifiedAt then
        (st.1, { st.2 with conflicts := st.2.conflicts + 1 })
      else
        (updateItemRows st.1 remote.id (overwriteFromRemote remote),
         { st.2 with pulled := st.2.pulled + 1 })
    else st

/-- The whole pull phase (step 2 of `syncLoop`), folding over the fetched
remote changes. -/
def pullPhase (lastSync : String) (items : List ItemRow) (res : SyncResult)
    (remotes : List ItemRow) : List ItemRow × SyncResult :=
  remotes.foldl (pullRemoteItem lastSync) (items, res)

-- ---------------------------------------------------------------------------
-- C1: conflict detection in the pull phase
-- ---------------------------------------------------------------------------

/-- The cursor written by step 5 of `syncLoop`:
`new Date().toISOString()`. -/
def lastSyncIso : String := "2026-02-03T10:00:00.000Z"

/-- Local row with `version = 2`, edited at 12:34:56 UTC of the same day —
chronologically after the 10:00 sync cursor — with `modifiedAt` in the
format local mutations actually write, SQLite's `datetime('now')`. -/
def localItemV2 : ItemRow :=
  { id := "item-1", libraryId := "lib-1", itemType := "journalArticle",
    title := some "Local Title", authors := none, year := none,
    journal := none, volume := none, issue := none, pages := none,
    doi := none, isbn := none, abstract := none, tags := none, extra := none,
    createdBy := some "alice", createdAt := "2026-01-01 00:00:00",
    modifiedAt := "2026-02-03 12:34:56", version := 2, deleted := 0 }

/-- The same local row with its edit instant rendered in the cursor's own
`toISOString` format. -/
def localItemV2Iso : ItemRow :=
  { localItemV2 with modifiedAt := "2026-02-03T12:34:56.000Z" }

/-- Remote row of the same item at `version = 3`. -/
def remoteItemV3 : ItemRow :=
  { localItemV2 with title := some "Remote Title", modifiedAt := "2026-02-03T09:00:00.000Z", version := 3 }

/-- C1, failing input: because local mutations stamp `modifiedAt` with
SQLite's `datetime('now')` (`"YYYY-MM-DD HH:MM:SS"`) while
`lastSyncTimestamp` is written with `toISOString()`
(`"YYYY-MM-DDTHH:MM:SS.sssZ"`), and `' ' < 'T'` at index 10, the dirty check
`local.modifiedAt > lastSync` (a string comparison) is false for a local
edit made later the same UTC day.  The pull pass over the claim's own
version-2/version-3 example therefore overwrites the dirty local row and
counts `pulled`, not `conflicts` — local work is silently lost, contrary to
the claim and to the spec's "never silently lose local edits".  Had both
timestamps been in one format (third and fourth conjuncts), the very same
pass would have flagged the conflict and left the row alone. -/
theorem c1_same_day_edit_overwritten :
    strLt lastSyncIso localItemV2.modifiedAt = false ∧
    pullPhase lastSyncIso [localItemV2] ⟨0, 0, 0, 0⟩ [remoteItemV3]
      = ([overwriteFromRemote remoteItemV3 localItemV2], ⟨0, 1, 0, 0⟩) ∧
    strLt lastSyncIso localItemV2Iso.modifiedAt = true ∧
    pullPhase lastSyncIso [localItemV2Iso] ⟨0, 0, 0, 0⟩ [remoteItemV3]
      = ([localItemV2Iso], ⟨0, 0, 1, 0⟩) := by
  refine ⟨by decide, ?_, by decide, ?_⟩
  · show pullRemoteItem lastSyncIso ([localItemV2], ⟨0, 0, 0, 0⟩) remoteItemV3 = _
    decide
  · show pullRemoteItem lastSyncIso ([localItemV2Iso], ⟨0, 0, 0, 0⟩) remoteItemV3 = _
    decide

-- ---------------------------------------------------------------------------
-- Upload queue (types.ts `UploadQueueEntry`, sync.service.ts lines 182-221)
-- ---------------------------------------------------------------------------

/-- An `upload_queue` row.  `type` and `status` are the TEXT columns with the
source's string values (`'pdf' | 'annotation' | 'metadata'`,
`'pending' | 'uploading' | 'failed' | 'completed'`); `nextRetryAt` is an
instant in milliseconds, mirroring `Date.now() + ... * 1000`. -/
structure UploadQueueEntry where
  id : String
  type : String
  targetId : String
  localPath : Option String
  status : String
  retryCount : Nat
  maxRetries : Nat
  errorMsg : Option String
  createdAt : Nat
  nextRetryAt : Option Nat
deriving DecidableEq, Repr

/-- The per-entry body of `processUploadQueue`: the dispatched type-specific
handler's success or failure is abstracted as `handler`; on success the row
becomes `completed`; on failure `newRetry = retryCount + 1`, and the row
either turns terminal (`failed`, error message persisted) when
`newRetry >= maxRetries`, or keeps its status with
`nextRetryAt = now + 2^newRetry * 1000` milliseconds and the error message
recorded.  The second component is the `result.errors` increment. -/
def processQueueEntry (handler : UploadQueueEntry → Except String Unit)
    (now : Nat) (upload : UploadQueueEntry) : UploadQueueEntry × Nat :=
  match handler upload with
  | .ok _ => ({ upload with status := "completed" }, 0)
  | .error errMsg =>
    let newRetry := upload.retryCount + 1
    if newRetry ≥ upload.maxRetries then
      ({ upload with status := "failed", errorMsg := some errMsg, retryCount := newRetry }, 1)
    else
      ({ upload with retryCount := newRetry, nextRetryAt := some (now + 2 ^ newRetry * 1000), errorMsg := some errMsg }, 1)

/-- Writing one processed row back into the table (each source UPDATE is
`... WHERE id = ?`) and accumulating the error counter. -/
def applyProcessed (handler : UploadQueueEntry → Except String Unit)
    (now : Nat) (st : List UploadQueueEntry × SyncResult)
    (e : UploadQueueEntry) : List UploadQueueEntry × SyncResult :=
  let pe := processQueueEntry handler now e
  (st.1.map (fun x => if x.id = e.id then pe.1 else x),
   { st.2 with errors := st.2.errors + pe.2 })

/-- `SyncService.processUploadQueue`: snapshot the `pending` rows (the table
is kept in `createdAt` order, matching `ORDER BY createdAt`), then process
each snapshot row in turn, writing every outcome back by id. -/
def processUploadQueue (handler : UploadQueueEntry → Except String Unit)
    (now : Nat) (queue : List UploadQueueEntry) (res : SyncResult) :
    List UploadQueueEntry × SyncResult :=
  (queue.filter (fun e => e.status == "pending")).foldl
    (applyProcessed handler now) (queue, res)

/-- `d` successive sync passes over the queue (each pass drains once). -/
def drainN (handler : UploadQueueEntry → Except String Unit) (now : Nat) :
    Nat → List UploadQueueEntry × SyncResult → List UploadQueueEntry × SyncResult
  | 0, st => st
  | k + 1, st => drainN handler now k (processUploadQueue handler now st.1 st.2)

theorem processQueueEntry_id (handler : UploadQueueEntry → Except String Unit)
    (now : Nat) (e : UploadQueueEntry) :
    ((processQueueEntry handler now e).1).id = e.id := by
  unfold processQueueEntry
  cases handler e with
  | ok u => rfl
  | error msg =>
    by_cases h : e.retryCount + 1 ≥ e.maxRetries
    · simp only [h]
      rfl
    · simp only [h]
      rfl

theorem processQueueEntry_ok (handler : UploadQueueEntry → Except String Unit)
    (now : Nat) (e : UploadQueueEntry) (u : Unit) (h : handler e = .ok u) :
    processQueueEntry handler now e = ({ e with status := "completed" }, 0) := by
  unfold processQueueEntry
  rw [h]

theorem processQueueEntry_error_terminal
    (handler : UploadQueueEntry → Except String Unit) (now : Nat)
    (e : UploadQueueEntry) (msg : String) (h : handler e = .error msg)
    (hge : e.retryCount + 1 ≥ e.maxRetries) :
    processQueueEntry handler now e
      = ({ e with status := "failed", errorMsg := some msg, retryCount := e.retryCount + 1 }, 1) := by
  unfold processQueueEntry
  simp only [h]
  rw [if_pos hge]

theorem processQueueEntry_error_backoff
    (handler : UploadQueueEntry → Except String Unit) (now : Nat)
    (e : UploadQueueEntry) (msg : String) (h : handler e = .error msg)
    (hlt : e.retryCount + 1 < e.maxRetries) :
    processQueueEntry handler now e
      = ({ e with retryCount := e.retryCount + 1, nextRetryAt := some (now + 2 ^ (e.retryCount + 1) * 1000), errorMsg := some msg }, 1) := by
  unfold processQueueEntry
  simp only [h]
  rw [if_neg (by omega)]

theorem processUploadQueue_singleton
    (handler : UploadQueueEntry → Except String Unit) (now : Nat)
    (e : UploadQueueEntry) (res : SyncResult) (hp : e.status = "pending") :
    processUploadQueue handler now [e] res
      = ([(processQueueEntry handler now e).1],
         { res with errors := res.errors + (processQueueEntry handler now e).2 }) := by
  unfold processUploadQueue
  have hf : [e].filter (fun x => x.status == "pending") = [e] := by
    simp [hp]
  rw [hf, List.foldl_cons, List.foldl_nil]
  unfold applyProcessed
  simp

theorem drain_fold_fst (handler : UploadQueueEntry → Except String Unit)
    (now : Nat) :
    ∀ (ps t : List UploadQueueEntry) (r : SyncResult),
      (ps.foldl (applyProcessed handler now) (t, r)).1
        = ps.foldl
            (fun t e => t.map (fun x =>
              if x.id = e.id then (processQueueEntry handler now e).1 else x))
            t := by
  intro ps
  induction ps with
  | nil => intro t r; rfl
  | cons e ps ih =>
    intro t r
    rw [List.foldl_cons, List.foldl_cons]
    exact ih _ _

theorem drain_foldl_map_update (u : UploadQueueEntry → UploadQueueEntry) :
    ∀ (ps t : List UploadQueueEntry),
      ps.foldl (fun t e => t.map (fun x => if x.id = e.id then u e else x)) t
        = t.map (fun x =>
            ps.foldl (fun x e => if x.id = e.id then u e else x) x) := by
  intro ps
  induction ps with
  | nil =>
    intro t
    simp
  | cons e ps ih =>
    intro t
    rw [List.foldl_cons, ih, List.map_map]
    simp only [List.foldl_cons]
    rfl

theorem drain_row_no_hit (u : UploadQueueEntry → UploadQueueEntry) :
    ∀ (ps : List UploadQueueEntry) (x : UploadQueueEntry),
      (∀ e ∈ ps, e.id ≠ x.id) →
      ps.foldl (fun x e => if x.id = e.id then u e else x) x = x := by
  intro ps
  induction ps with
  | nil => intro x _; rfl
  | cons e ps ih =>
    intro x h
    rw [List.foldl_cons,
      if_neg (fun hh => h e (List.mem_cons_self e ps) hh.symm)]
    exact ih x (fun q hq => h q (List.mem_cons_of_mem e hq))

/-- Independence of queue entries: with distinct row ids, every row's final
state is exactly its own processed outcome (pending rows get their handler
result, the rest stay put), regardless of the other entries' failures. -/
theorem processUploadQueue_table (handler : UploadQueueEntry → Except String Unit)
    (now : Nat) (queue : List UploadQueueEntry) (res : SyncResult)
    (hn : (queue.map (fun e => e.id)).Nodup) :
    (processUploadQueue handler now queue res).1
      = queue.map (fun x =>
          if x.status == "pending" then (processQueueEntry handler now x).1
          else x) := by
  unfold processUploadQueue
  rw [drain_fold_fst, drain_foldl_map_update]
  apply List.map_congr_left
  intro x hx
  have hpsn : ((queue.filter (fun e => e.status == "pending")).map
      (fun e => e.id)).Nodup :=
    hn.sublist (List.Sublist.map _ (List.filter_sublist queue))
  by_cases hp : (x.status == "pending") = true
  · rw [if_pos hp]
    have hxps : x ∈ queue.filter (fun e => e.status == "pending") :=
      List.mem_filter.mpr ⟨hx, hp⟩
    obtain ⟨p1, p2, hsplit⟩ := List.append_of_mem hxps
    rw [hsplit]
    rw [hsplit, List.map_append, List.map_cons] at hpsn
    rcases List.nodup_append.mp hpsn with ⟨h1n, h2n, hdisj⟩
    have hxp2 : x.id ∉ p2.map (fun e => e.id) := (List.nodup_cons.mp h2n).1
    have h1 : ∀ e ∈ p1, e.id ≠ x.id := by
      intro e he hid
      exact absurd (List.mem_cons_self x.id _)
        (hdisj (hid ▸ List.mem_map_of_mem (fun e => e.id) he))
    have h2 : ∀ e ∈ p2, e.id ≠ ((processQueueEntry handler now x).1).id := by
      intro e he hid
      rw [processQueueEntry_id] at hid
      exact hxp2 (hid ▸ List.mem_map_of_mem (fun e => e.id) he)
    rw [List.foldl_append, drain_row_no_hit _ p1 x h1, List.foldl_cons,
      if_pos rfl]
    exact drain_row_no_hit _ p2 _ h2
  · rw [if_neg hp]
    apply drain_row_no_hit
    intro e he hid
    have heq : e = x := List.inj_on_of_nodup_map hn
      (List.mem_of_mem_filter he) hx hid
    have hpe : (e.status == "pending") = true := (List.mem_filter.mp he).2
    rw [heq] at hpe
    exact hp hpe

/-- Escalation under an always-failing handler: starting pending with
`retryCount < maxRetries`, after `maxRetries - retryCount` drains the single
queued row is `failed` with `retryCount = maxRetries` and the error message
persisted. -/
theorem drain_always_fail (handler : UploadQueueEntry → Except String Unit)
    (now : Nat) (msg : String) (hfail : ∀ x, handler x = .error msg) :
    ∀ (d : Nat) (e : UploadQueueEntry) (res : SyncResult),
      e.status = "pending" → e.retryCount < e.maxRetries →
      d = e.maxRetries - e.retryCount →
      ((drainN handler now d ([e], res)).1).map
          (fun x => (x.status, x.retryCount, x.errorMsg))
        = [("failed", e.maxRetries, some msg)] := by
  intro d
  induction d with
  | zero => intro e res hp hlt hd; omega
  | succ k ih =>
    intro e res hp hlt hd
    show ((drainN handler now k
      (processUploadQueue handler now [e] res)).1).map _ = _
    rw [processUploadQueue_singleton handler now e res hp]
    by_cases hterm : e.retryCount + 1 ≥ e.maxRetries
    · have hk : k = 0 := by omega
      subst hk
      rw [processQueueEntry_error_terminal handler now e msg (hfail e) hterm]
      have hm : e.retryCount + 1 = e.maxRetries := by omega
      show [(("failed" : String), e.retryCount + 1, some msg)] = [(("failed" : String), e.maxRetries, some msg)]
      rw [hm]
    · have hlt2 : e.retryCount + 1 < e.maxRetries := by omega
      rw [processQueueEntry_error_backoff handler now e msg (hfail e) hlt2]
      refine ih _ _ hp ?_ ?_
      · show e.retryCount + 1 < e.maxRetries
        exact hlt2
      · show k = e.maxRetries - (e.retryCount + 1)
        omega

/-- One non-terminal failure leaves the row with its status untouched
(`pending`), the incremented retry count, the scheduled backoff instant and
the error message. -/
theorem drain_backoff (handler : UploadQueueEntry → Except String Unit)
    (now : Nat) (msg : String) (e : UploadQueueEntry) (res : SyncResult)
    (hp : e.status = "pending") (hf : handler e = .error msg)
    (hlt : e.retryCount + 1 < e.maxRetries) :
    (processUploadQueue handler now [e] res).1
      = [{ e with retryCount := e.retryCount + 1, nextRetryAt := some (now + 2 ^ (e.retryCount + 1) * 1000), errorMsg := some msg }] := by
  rw [processUploadQueue_singleton handler now e res hp,
    processQueueEntry_error_backoff handler now e msg hf hlt]

/-- A failure on one drain followed by a success on a later drain ends with
the row `completed` and the retry count stuck at the failures so far. -/
theorem drain_fail_then_ok (h1 h2 : UploadQueueEntry → Except String Unit)
    (now1 now2 : Nat) (msg : String) (e : UploadQueueEntry)
    (res1 res2 : SyncResult) (hp : e.status = "pending")
    (hf : h1 e = .error msg) (hlt : e.retryCount + 1 < e.maxRetries)
    (hok : ∀ x, h2 x = .ok ()) :
    ((processUploadQueue h2 now2
        (processUploadQueue h1 now1 [e] res1).1 res2).1).map
          (fun x => (x.status, x.retryCount))
      = [("completed", e.retryCount + 1)] := by
  rw [drain_backoff h1 now1 msg e res1 hp hf hlt]
  have hp' : ({ e with retryCount := e.retryCount + 1, nextRetryAt := some (now1 + 2 ^ (e.retryCount + 1) * 1000), errorMsg := some msg } : UploadQueueEntry).status = "pending" := hp
  rw [processUploadQueue_singleton h2 now2 _ res2 hp']
  rw [processQueueEntry_ok h2 now2 _ () (hok _)]
  rfl

-- ---------------------------------------------------------------------------
-- C7: upload-queue retry accounting
-- ---------------------------------------------------------------------------

/-- C7: (i) under an always-failing handler a pending entry's `retryCount`
climbs to exactly `maxRetries`, its status becomes `failed` and the error
message is persisted; (ii) failing once and succeeding on a later drain
leaves the entry `completed` with `retryCount` equal to the one failure;
(iii) a non-terminal failure keeps the entry `pending` (status untouched)
with `nextRetryAt = now + 2^retryCount seconds` for the incremented
`retryCount` and the message recorded; (iv) with distinct row ids every
pending entry is processed to its own outcome regardless of the other
entries' failures. -/
theorem c7_upload_queue_retry :
    (∀ (handler : UploadQueueEntry → Except String Unit) (now : Nat)
        (msg : String), (∀ x, handler x = .error msg) →
      ∀ (d : Nat) (e : UploadQueueEntry) (res : SyncResult),
        e.status = "pending" → e.retryCount < e.maxRetries →
        d = e.maxRetries - e.retryCount →
        ((drainN handler now d ([e], res)).1).map
            (fun x => (x.status, x.retryCount, x.errorMsg))
          = [("failed", e.maxRetries, some msg)]) ∧
    (∀ (h1 h2 : UploadQueueEntry → Except String Unit) (now1 now2 : Nat)
        (msg : String) (e : UploadQueueEntry) (res1 res2 : SyncResult),
      e.status = "pending" → h1 e = .error msg →
      e.retryCount + 1 < e.maxRetries → (∀ x, h2 x = .ok ()) →
      ((processUploadQueue h2 now2
          (processUploadQueue h1 now1 [e] res1).1 res2).1).map
            (fun x => (x.status, x.retryCount))
        = [("completed", e.retryCount + 1)]) ∧
    (∀ (handler : UploadQueueEntry → Except String Unit) (now : Nat)
        (msg : String) (e : UploadQueueEntry) (res : SyncResult),
      e.status = "pending" → handler e = .error msg →
      e.retryCount + 1 < e.maxRetries →
      (processUploadQueue handler now [e] res).1
        = [{ e with retryCount := e.retryCount + 1, nextRetryAt := some (now + 2 ^ (e.retryCount + 1) * 1000), errorMsg := some msg }]) ∧
    (∀ (handler : UploadQueueEntry → Except String Unit) (now : Nat)
        (queue : List UploadQueueEntry) (res : SyncResult),
      (queue.map (fun e => e.id)).Nodup →
      (processUploadQueue handler now queue res).1
        = queue.map (fun x =>
            if x.status == "pending" then (processQueueEntry handler now x).1
            else x)) :=
  ⟨fun handler now msg hfail => drain_always_fail handler now msg hfail,
   fun h1 h2 now1 now2 msg e res1 res2 hp hf hlt hok =>
     drain_fail_then_ok h1 h2 now1 now2 msg e res1 res2 hp hf hlt hok,
   fun handler now msg e res hp hf hlt =>
     drain_backoff handler now msg e res hp hf hlt,
   fun handler now queue res hn =>
     processUploadQueue_table handler now queue res hn⟩

/-- A pending annotation upload with no retries yet and `maxRetries = 2`. -/
def qEntry : UploadQueueEntry :=
  { id := "q1", type := "annotation", targetId := "as-1", localPath := none,
    status := "pending", retryCount := 0, maxRetries := 2, errorMsg := none,
    createdAt := 0, nextRetryAt := none }

/-- A second pending entry with a distinct id. -/
def qEntryPdf : UploadQueueEntry :=
  { qEntry with id := "q2", type := "pdf", targetId := "att-9", localPath := some "/tmp/a.pdf" }

/-- Witness for C7 at concrete entries: two always-failing drains drive
`qEntry` to `failed` with `retryCount = maxRetries = 2`; a failure followed
by a success leaves it `completed` with `retryCount = 1`; the intermediate
failure leaves it pending with the scheduled backoff; and on a two-entry
queue each pending entry gets its own outcome. -/
theorem c7_upload_queue_retry_witness :
    ((drainN (fun _ => Except.error "boom") 1000 2
        ([qEntry], ⟨0, 0, 0, 0⟩)).1).map
          (fun x => (x.status, x.retryCount, x.errorMsg))
      = [("failed", 2, some "boom")] ∧
    ((processUploadQueue (fun _ => Except.ok ()) 2000
        (processUploadQueue (fun _ => Except.error "boom") 1000
          [qEntry] ⟨0, 0, 0, 0⟩).1 ⟨0, 0, 0, 0⟩).1).map
          (fun x => (x.status, x.retryCount))
      = [("completed", 1)] ∧
    (processUploadQueue (fun _ => Except.error "boom") 1000
        [qEntry] ⟨0, 0, 0, 0⟩).1
      = [{ qEntry with retryCount := 1, nextRetryAt := some (1000 + 2 ^ 1 * 1000), errorMsg := some "boom" }] ∧
    (processUploadQueue (fun _ => Except.error "boom") 1000
        [qEntry, qEntryPdf] ⟨0, 0, 0, 0⟩).1
      = [qEntry, qEntryPdf].map (fun x =>
          if x.status == "pending"
          then (processQueueEntry (fun _ => Except.error "boom") 1000 x).1
          else x) :=
  ⟨c7_upload_queue_retry.1 _ 1000 "boom" (fun _ => rfl) 2 qEntry ⟨0, 0, 0, 0⟩
      rfl (by decide) (by decide),
   c7_upload_queue_retry.2.1 _ _ 1000 2000 "boom" qEntry ⟨0, 0, 0, 0⟩
      ⟨0, 0, 0, 0⟩ rfl rfl (by decide) (fun _ => rfl),
   c7_upload_queue_retry.2.2.1 _ 1000 "boom" qEntry ⟨0, 0, 0, 0⟩ rfl rfl
      (by decide),
   c7_upload_queue_retry.2.2.2 _ 1000 [qEntry, qEntryPdf] ⟨0, 0, 0, 0⟩
      (by decide)⟩

-- ---------------------------------------------------------------------------
-- Items at the domain level (types.ts `Item`, library.service.ts CRUD)
-- ---------------------------------------------------------------------------

structure Author where
  given : String
  family : String
deriving DecidableEq, Repr

/-- The domain `Item` (types.ts): JSON columns decoded (`authors`, `tags`),
`deleted` a boolean, `extra` kept as the opaque serialized extension map
(never touched by the operations modelled here). -/
structure Item where
  id : String
  libraryId : String
  itemType : String
  title : Option String
  authors : List Author
  year : Option String
  journal : Option String
  volume : Option String
  issue : Option String
  pages : Option String
  doi : Option String
  isbn : Option String
  abstract : Option String
  tags : List String
  extra : Option String
  createdBy : Option String
  createdAt : Nat
  modifiedAt : Nat
  version : Int
  deleted : Bool
deriving DecidableEq, Repr

/-- The creation payload of `LibraryService.createItem` (all optional). -/
structure ItemCreateData where
  title : Option String := none
  itemType : Option String := none
  authors : Option (List Author) := none
  year : Option String := none
  journal : Option String := none
  volume : Option String := none
  issue : Option String := none
  pages : Option String := none
  doi : Option String := none
  isbn : Option String := none
  abstract : Option String := none
  tags : Option (List String) := none
deriving DecidableEq, Repr

/-- The partial update payload of `LibraryService.updateItem`
(`Partial<Item>` restricted to the columns the UPDATE statement sets; a
field that is absent — or `null`, which `??` treats the same — is `none`). -/
structure ItemPatch where
  title : Option String := none
  authors : Option (List Author) := none
  year : Option String := none
  journal : Option String := none
  volume : Option String := none
  issue : Option String := none
  pages : Option String := none
  doi : Option String := none
  isbn : Option String := none
  abstract : Option String := none
  tags : Option (List String) := none
deriving DecidableEq, Repr

/-- JavaScript `a ?? b` on a nullable column value. -/
def coalesce {α : Type} : Option α → Option α → Option α
  | some a, _ => some a
  | none, b => b

/-- `LibraryService.createItem` (library.service.ts, lines 113-156): INSERT
with `itemType ?? 'journalArticle'`, nullable metadata columns, JSON-encoded
`authors`/`tags` (absent → NULL, decoded back to `[]`), and the schema
defaults `version = 1`, `deleted = 0` for the omitted columns. -/
def createItem (libraryId : String) (data : ItemCreateData) (id user : String)
    (now : Nat) : Item :=
  { id := id, libraryId := libraryId,
    itemType := data.itemType.getD "journalArticle",
    title := data.title,
    authors := data.authors.getD [],
    year := data.year, journal := data.journal, volume := data.volume,
    issue := data.issue, pages := data.pages, doi := data.doi,
    isbn := data.isbn, abstract := data.abstract,
    tags := data.tags.getD [],
    extra := none,
    createdBy := some user, createdAt := now, modifiedAt := now,
    version := 1, deleted := false }

/-- `LibraryService.updateItem` (lines 172-200): every listed column is set
to `data.field ?? existing.field` (the array-valued `authors`/`tags` by the
source's truthiness test, which any provided array passes), plus
`version = version + 1` and a fresh `modifiedAt`; no other column appears in
the SET list. -/
def updateItem (existing : Item) (data : ItemPatch) (now : Nat) : Item :=
  { existing with
    title := coalesce data.title existing.title,
    authors := data.authors.getD existing.authors,
    year := coalesce data.year existing.year,
    journal := coalesce data.journal existing.journal,
    volume := coalesce data.volume existing.volume,
    issue := coalesce data.issue existing.issue,
    pages := coalesce data.pages existing.pages,
    doi := coalesce data.doi existing.doi,
    isbn := coalesce data.isbn existing.isbn,
    abstract := coalesce data.abstract existing.abstract,
    tags := data.tags.getD existing.tags,
    version := existing.version + 1,
    modifiedAt := now }

/-- `LibraryService.deleteItem` (lines 202-206): soft delete —
`SET deleted = 1, modifiedAt = datetime('now'), version = version + 1`. -/
def deleteItem (existing : Item) (now : Nat) : Item :=
  { existing with deleted := true, modifiedAt := now, version := existing.version + 1 }

-- ---------------------------------------------------------------------------
-- C8: version accounting of item mutations
-- ---------------------------------------------------------------------------

/-- C8: a created item has `version = 1` and is not deleted; one `updateItem`
increments the version by exactly one whatever the patch, with every
unspecified field keeping its prior value (and the columns outside the SET
list always kept); `deleteItem` sets the soft-delete flag and also increments
the version by one. -/
theorem c8_item_version_accounting :
    (∀ (libraryId : String) (data : ItemCreateData) (id user : String)
        (now : Nat),
      (createItem libraryId data id user now).version = 1 ∧
      (createItem libraryId data id user now).deleted = false) ∧
    (∀ (item : Item) (data : ItemPatch) (now : Nat),
      (updateItem item data now).version = item.version + 1 ∧
      (updateItem item data now).id = item.id ∧
      (updateItem item data now).libraryId = item.libraryId ∧
      (updateItem item data now).itemType = item.itemType ∧
      (updateItem item data now).extra = item.extra ∧
      (updateItem item data now).createdBy = item.createdBy ∧
      (updateItem item data now).createdAt = item.createdAt ∧
      (updateItem item data now).deleted = item.deleted ∧
      (data.title = none → (updateItem item data now).title = item.title) ∧
      (data.authors = none → (updateItem item data now).authors = item.authors) ∧
      (data.year = none → (updateItem item data now).year = item.year) ∧
      (data.journal = none → (updateItem item data now).journal = item.journal) ∧
      (data.volume = none → (updateItem item data now).volume = item.volume) ∧
      (data.issue = none → (updateItem item data now).issue = item.issue) ∧
      (data.pages = none → (updateItem item data now).pages = item.pages) ∧
      (data.doi = none → (updateItem item data now).doi = item.doi) ∧
      (data.isbn = none → (updateItem item data now).isbn = item.isbn) ∧
      (data.abstract = none → (updateItem item data now).abstract = item.abstract) ∧
      (data.tags = none → (updateItem item data now).tags = item.tags)) ∧
    (∀ (item : Item) (now : Nat),
      (deleteItem item now).deleted = true ∧
      (deleteItem item now).version = item.version + 1) := by
  refine ⟨fun libraryId data id user now => ⟨rfl, rfl⟩, ?_,
    fun item now => ⟨rfl, rfl⟩⟩
  intro item data now
  refine ⟨rfl, rfl, rfl, rfl, rfl, rfl, rfl, rfl, ?_, ?_, ?_, ?_, ?_, ?_, ?_,
    ?_, ?_, ?_, ?_⟩ <;> intro h <;>
    simp only [updateItem, h, coalesce, Option.getD]

/-- Witness for C8: a concrete created item has version 1; one update (of the
title only) takes it to version 2 while keeping the untouched `year`; the
soft delete flags it deleted at version 2. -/
theorem c8_item_version_accounting_witness :
    (createItem "lib-1" {} "item-1" "alice" 0).version = 1 ∧
    (updateItem (createItem "lib-1" {} "item-1" "alice" 0)
        { title := some "T" } 5).version = 2 ∧
    (updateItem (createItem "lib-1" {} "item-1" "alice" 0)
        { title := some "T" } 5).year
      = (createItem "lib-1" {} "item-1" "alice" 0).year ∧
    (deleteItem (createItem "lib-1" {} "item-1" "alice" 0) 7).deleted = true ∧
    (deleteItem (createItem "lib-1" {} "item-1" "alice" 0) 7).version = 2 := by
  have hc := c8_item_version_accounting.1 "lib-1" {} "item-1" "alice" 0
  have hu := c8_item_version_accounting.2.1
    (createItem "lib-1" {} "item-1" "alice" 0) { title := some "T" } 5
  have hd := c8_item_version_accounting.2.2
    (createItem "lib-1" {} "item-1" "alice" 0) 7
  refine ⟨hc.1, ?_, hu.2.2.2.2.2.2.2.2.2.2.1 rfl, hd.1, ?_⟩
  · rw [hu.1, hc.1]
    decide
  · rw [hd.2, hc.1]
    decide

-- ---------------------------------------------------------------------------
-- Attachments and the duplicate check of addPdfToGroup (C10)
-- ---------------------------------------------------------------------------

/-- An `attachments` row (interface `Attachment` in types.ts). -/
structure Attachment where
  id : String
  itemId : String
  filename : String
  mime : String
  size : Option Int
  checksum : String
  driveFileId : Option String
  parentFolderId : Option String
  sharedDriveId : Option String
  driveWebLink : Option String
  driveRevision : Option String
  createdBy : Option String
  createdAt : Nat
  modifiedAt : Nat
  version : Int
deriving DecidableEq, Repr

/-- The duplicate query of `addPdfToGroup` (library.service.ts, lines
246-253): `SELECT a.* FROM attachments a JOIN items i ON a.itemId = i.id
WHERE a.checksum = ? AND i.libraryId = ? AND i.deleted = 0`, taking the first
matching row. -/
def findDuplicate (attachments : List Attachment) (items : List ItemRow)
    (checksum libraryId : String) : Option Attachment :=
  attachments.find? (fun a =>
    a.checksum == checksum &&
    items.any (fun i =>
      i.id == a.itemId && i.libraryId == libraryId && i.deleted == 0))

/-- Outcome of the duplicate check: `duplicateError` corresponds to
`throw new DuplicateError(...)` (lines 255-259), `proceed` to falling through
to the upload. -/
inductive AddPdfCheck where
  | duplicateError (existing : Attachment)
  | proceed
deriving DecidableEq, Repr

/-- The duplicate-check step of `addPdfToGroup`. -/
def addPdfDuplicateCheck (attachments : List Attachment) (items : List ItemRow)
    (checksum libraryId : String) : AddPdfCheck :=
  match findDuplicate attachments items checksum libraryId with
  | some existing => .duplicateError existing
  | none => .proceed

-- ---------------------------------------------------------------------------
-- C10: duplicates are scoped to non-soft-deleted items of the library
-- ---------------------------------------------------------------------------

/-- C10: `addPdfToGroup` raises `DuplicateError` iff some attachment with the
same checksum belongs to a non-soft-deleted item of the target library; in
particular, when every item owning such an attachment is soft-deleted, the
check proceeds — soft-deleting an item frees its PDFs' checksums. -/
theorem c10_duplicate_check (attachments : List Attachment)
    (items : List ItemRow) (checksum libraryId : String) :
    ((∃ ex, addPdfDuplicateCheck attachments items checksum libraryId
        = .duplicateError ex) ↔
      ∃ a ∈ attachments, a.checksum = checksum ∧
        ∃ i ∈ items, i.id = a.itemId ∧ i.libraryId = libraryId ∧
          i.deleted = 0) ∧
    ((∀ a ∈ attachments, a.checksum = checksum →
        ∀ i ∈ items, i.id = a.itemId → i.libraryId = libraryId →
          i.deleted ≠ 0) →
      addPdfDuplicateCheck attachments items checksum libraryId = .proceed) := by
  constructor
  · constructor
    · rintro ⟨ex, hex⟩
      unfold addPdfDuplicateCheck at hex
      rcases hfind : findDuplicate attachments items checksum libraryId
        with _ | a
      · rw [hfind] at hex
        cases hex
      · have hmem := List.mem_of_find?_eq_some hfind
        have hpred := List.find?_some hfind
        simp only [Bool.and_eq_true, beq_iff_eq, List.any_eq_true] at hpred
        rcases hpred with ⟨hck, i, hi, his⟩
        exact ⟨a, hmem, hck, i, hi, his.1.1, his.1.2, his.2⟩
    · rintro ⟨a, ha, hck, i, hi, hid, hlib, hdel⟩
      have hsome : (findDuplicate attachments items checksum libraryId).isSome := by
        unfold findDuplicate
        rw [List.find?_isSome]
        refine ⟨a, ha, ?_⟩
        simp only [Bool.and_eq_true, beq_iff_eq, List.any_eq_true]
        exact ⟨hck, i, hi, ⟨hid, hlib⟩, hdel⟩
      rcases hfind : findDuplicate attachments items checksum libraryId
        with _ | b
      · rw [hfind] at hsome
        cases hsome
      · exact ⟨b, by unfold addPdfDuplicateCheck; rw [hfind]⟩
  · intro hall
    unfold addPdfDuplicateCheck
    rcases hfind : findDuplicate attachments items checksum libraryId
      with _ | a
    · rfl
    · exfalso
      have hmem := List.mem_of_find?_eq_some hfind
      have hpred := List.find?_some hfind
      simp only [Bool.and_eq_true, beq_iff_eq, List.any_eq_true] at hpred
      rcases hpred with ⟨hck, i, hi, his⟩
      exact hall a hmem hck i hi his.1.1 his.1.2 his.2

/-- An attachment whose checksum is `c1`, owned by item `item-del`. -/
def attOld : Attachment :=
  { id := "att-1", itemId := "item-del", filename := "a.pdf",
    mime := "application/pdf", size := some 10, checksum := "c1",
    driveFileId := none, parentFolderId := none, sharedDriveId := none,
    driveWebLink := none, driveRevision := none, createdBy := some "alice",
    createdAt := 0, modifiedAt := 0, version := 1 }

/-- The owning item, soft-deleted. -/
def itemSoftDeleted : ItemRow :=
  { localItemV2 with id := "item-del", deleted := 1 }

/-- Witness for C10: with the only matching attachment owned by a
soft-deleted item the check proceeds; un-deleting that item makes the same
checksum raise the duplicate error. -/
theorem c10_duplicate_check_witness :
    addPdfDuplicateCheck [attOld] [itemSoftDeleted] "c1" "lib-1" = .proceed ∧
    (∃ ex, addPdfDuplicateCheck [attOld]
        [{ itemSoftDeleted with deleted := 0 }] "c1" "lib-1"
      = .duplicateError ex) :=
  ⟨(c10_duplicate_check [attOld] [itemSoftDeleted] "c1" "lib-1").2
      (by decide),
   (c10_duplicate_check [attOld] [{ itemSoftDeleted with deleted := 0 }]
      "c1" "lib-1").1.mpr (by decide)⟩

end CloudBib
